import Mathlib

/-!
Shallow embedding of the resilient Aruba Central API access layer
(src/lambda_py/api_client.py) and proofs about its pagination engine,
retry/backoff transport, rate-limit inflation and token manager.

The HTTP world is modelled as a script: a list of responses, one per
physical request the code issues.  A page response is `Option JValue`
(`none` models a body that fails JSON decoding).  Stateful Python code
becomes explicit state passing; each collector additionally returns the
trace of requests it issued (query parameters and headers), so that
claims about "every request" become statements about that trace.
-/

/-- JSON values as parsed by `json.loads`.  Python dicts are ordered
association lists (insertion order, no duplicate keys). -/
inductive JValue where
  | null
  | bool (b : Bool)
  | num (n : Int)
  | str (s : String)
  | arr (elems : List JValue)
  | obj (fields : List (String × JValue))

/-- Dictionary lookup `js[k]` / `js.get(k)`: first field with the key. -/
def jget : List (String × JValue) → String → Option JValue
  | [], _ => none
  | (k, v) :: rest, key => if k = key then some v else jget rest key

/-- The `for k in root_keys: if k in js and isinstance(js[k], list)` probe:
first root key whose value is an array. -/
def firstRootList (root_keys : List String) (fs : List (String × JValue)) :
    Option (List JValue) :=
  match root_keys with
  | [] => none
  | k :: ks =>
    match jget fs k with
    | some (JValue.arr l) => some l
    | _ => firstRootList ks fs

/-- The `for v in js.values(): if isinstance(v, list)` fallback:
first array-valued field of the object, in insertion order. -/
def firstListValue : List (String × JValue) → Option (List JValue)
  | [] => none
  | (_, JValue.arr l) :: _ => some l
  | _ :: rest => firstListValue rest

/-- The body's `items` field when it is an array (the probe the code runs
before the root-key list), `none` when absent or not an array. -/
def itemsArr (fs : List (String × JValue)) : Option (List JValue) :=
  match jget fs "items" with
  | some (JValue.arr l) => some l
  | _ => none

/-- `_extract_items` of `_cursor_or_offset_collect` (api_client.py:284-300):
`items` first, then each root key in order, then the first array-valued
field, then a `data` object wrapped as a singleton, a list body as-is,
otherwise empty. -/
def extract_items (root_keys : List String) : JValue → List JValue
  | JValue.obj fs =>
    match itemsArr fs with
    | some l => l
    | none =>
      match firstRootList root_keys fs with
      | some l => l
      | none =>
        match firstListValue fs with
        | some l => l
        | none =>
          match jget fs "data" with
          | some (JValue.obj dfs) => [JValue.obj dfs]
          | _ => []
  | JValue.arr xs => xs
  | _ => []

/-- Modelled from the claim's words (C8), for comparison with
`extract_items`: try each rootKey of the descriptor's rootKeys in the
order given; only if none matches fall back to the first array-valued
field; if still none, use the body itself when it is already a list;
otherwise the page is empty. -/
def extract_items_claim (root_keys : List String) : JValue → List JValue
  | JValue.obj fs =>
    match firstRootList root_keys fs with
    | some l => l
    | none =>
      match firstListValue fs with
      | some l => l
      | none => []
  | JValue.arr xs => xs
  | _ => []

/-- `js.get("next")` with Python truthiness: a non-empty string is a
cursor token; an empty string, `null`, a missing key or a non-object
body stop cursor paging.  (The vendor API's `next` is a string or null.) -/
def getNext : JValue → Option String
  | JValue.obj fs =>
    match jget fs "next" with
    | some (JValue.str s) => if s.isEmpty then none else some s
    | _ => none
  | _ => none

/-- One issued HTTP GET: its query parameters and its headers. -/
structure Req where
  qparams : List (String × String)
  headers : List (String × String)
deriving DecidableEq

/-- Query-parameter lookup on a request. -/
def pget : List (String × String) → String → Option String
  | [], _ => none
  | (k, v) :: rest, key => if k = key then some v else pget rest key

/-- Python renders `f"Bearer {self._access_token}"` with `None` printed
as the four-letter string when no token is cached. -/
def tok_render : Option String → String
  | some t => t
  | none => "None"

/-- `_headers()` (api_client.py:436-440): Accept, bearer Authorization
from the currently cached token, optional X-Customer-Id. -/
def headersOf (tok : Option String) (cust : Option String) :
    List (String × String) :=
  [("Accept", "application/json"), ("Authorization", "Bearer " ++ tok_render tok)]
    ++ (match cust with
        | some c => [("X-Customer-Id", c)]
        | none => [])

/-- The caller-supplied `annotate` callback: `some v` is the item after
in-place tagging, `none` models the callback raising; the code swallows
the exception and appends the item unchanged. -/
def annotate_apply (ann : JValue → Option JValue) (it : JValue) : JValue :=
  match ann it with
  | some v => v
  | none => it

/-- The site-identifying parameters preserved for cursor pages:
`[k for k in params.keys() if k in ("site-id", "siteId")]`. -/
def site_filter (params : List (String × String)) : List (String × String) :=
  params.filter (fun kv => kv.1 == "site-id" || kv.1 == "siteId")

/-- Query parameters of every cursor page after the first:
`{"next": next_token, **site_id_params}` — no limit. -/
def paging_params (t : String) (sp : List (String × String)) :
    List (String × String) :=
  ("next", t) :: sp

/-- The `while next_token and page < self.max_pages_per_call` loop of
`_cursor_or_offset_collect` (api_client.py:327-351).  `page` counts
pages parsed so far; the script supplies one response per request. -/
def collect_go (tok cust : Option String) (sp : List (String × String))
    (ann : JValue → Option JValue) (root_keys : List String) (mp : Nat) :
    List (Option JValue) → Nat → Option String → List JValue →
    List JValue × List Req
  | _, _, none, acc => (acc, [])
  | script, page, some t, acc =>
    if page < mp then
      match script with
      | [] => (acc, [])
      | r :: rest =>
        let req : Req := ⟨paging_params t sp, headersOf tok cust⟩
        match r with
        | none => (acc, [req])
        | some js =>
          let items := extract_items root_keys js
          if items.isEmpty then (acc, [req])
          else
            let acc1 := acc ++ items.map (annotate_apply ann)
            let rr := collect_go tok cust sp ann root_keys mp rest (page + 1)
              (getNext js) acc1
            (rr.1, req :: rr.2)
    else (acc, [])

/-- `_cursor_or_offset_collect` (api_client.py:256-351).  The first
request carries the caller's params with `limit` defaulted to
`min(page_limit, 100)`; a first page that fails to decode returns `[]`;
afterwards cursor paging runs via `collect_go`.  Note: the source's
docstring promises an offset fallback (step 3) but the body contains no
offset loop — when the first page carries no `next` token the function
returns after that single page. -/
def cursor_or_offset_collect (tok cust : Option String)
    (page_limit mp : Nat) (params : List (String × String))
    (root_keys : List String) (ann : JValue → Option JValue)
    (script : List (Option JValue)) : List JValue × List Req :=
  let limit := min page_limit 100
  let base_params :=
    if (pget params "limit").isSome then params
    else params ++ [("limit", toString limit)]
  match script with
  | [] => ([], [])
  | r :: rest =>
    let req : Req := ⟨base_params, headersOf tok cust⟩
    match r with
    | none => ([], [req])
    | some js =>
      let items := (extract_items root_keys js).map (annotate_apply ann)
      let rr := collect_go tok cust (site_filter params) ann root_keys mp
        rest 1 (getNext js) items
      (rr.1, req :: rr.2)

/-- Item extraction of `list_devices` (api_client.py:167-179): the keys
devices/items/data in order; when that yields nothing (missing or an
empty array), the first array-valued field; a list body as-is. -/
def ld_extract : JValue → List JValue
  | JValue.obj fs =>
    let p1 :=
      match firstRootList ["devices", "items", "data"] fs with
      | some l => l
      | none => []
    if p1.isEmpty then
      match firstListValue fs with
      | some l => l
      | none => []
    else p1
  | JValue.arr xs => xs
  | _ => []

/-- The per-page deduplication loop of `list_devices`
(api_client.py:185-200), with the key derivation
(id/deviceId/macAddress/mac/serialNumber, then name+ipv4 composite)
abstracted as `keyOf`: an item whose key was already seen is skipped,
an item with a fresh key records it, a keyless item is always kept. -/
def dedup_page (keyOf : JValue → Option String) :
    List String → List JValue → List JValue → List String × List JValue
  | seen, acc, [] => (seen, acc)
  | seen, acc, d :: ds =>
    match keyOf d with
    | some k =>
      if seen.contains k then dedup_page keyOf seen acc ds
      else dedup_page keyOf (k :: seen) (acc ++ [d]) ds
    | none => dedup_page keyOf seen (acc ++ [d]) ds

/-- The `while True` loop of `list_devices` (api_client.py:153-211):
`page` is this iteration's 1-based page number; after the first page the
request parameters collapse to `{"next": next_token}` alone. -/
def ld_go (tok cust : Option String) (base_params : List (String × String))
    (mp : Nat) (keyOf : JValue → Option String) :
    List (Option JValue) → Nat → Option String → List String → List JValue →
    List JValue × List Req
  | [], _, _, _, acc => (acc, [])
  | r :: rest, page, next_token, seen, acc =>
    let params :=
      match next_token with
      | some t => if 1 < page then [("next", t)] else base_params
      | none => base_params
    let req : Req := ⟨params, headersOf tok cust⟩
    match r with
    | none => (acc, [req])
    | some js =>
      let page_items := ld_extract js
      if page_items.isEmpty then (acc, [req])
      else
        let sa := dedup_page keyOf seen acc page_items
        match getNext js with
        | none => (sa.2, [req])
        | some t2 =>
          if mp ≤ page then (sa.2, [req])
          else
            let rr := ld_go tok cust base_params mp keyOf rest (page + 1)
              (some t2) sa.1 sa.2
            (rr.1, req :: rr.2)

/-- `list_devices` (api_client.py:131-213): first request carries
`{limit: min(page_limit, 100)}` plus an optional sort expression; then
cursor paging with deduplication via `ld_go`. -/
def list_devices (tok cust : Option String) (page_limit : Nat)
    (sort : Option String) (mp : Nat) (keyOf : JValue → Option String)
    (script : List (Option JValue)) : List JValue × List Req :=
  let limit := min page_limit 100
  let base := [("limit", toString limit)]
    ++ (match sort with
        | some s => [("sort", s)]
        | none => [])
  ld_go tok cust base mp keyOf script 1 none [] []

/-- The offset loop of `_paged_collect` (api_client.py:520-551): each
request carries `{limit, offset}` with the offset stepping by the page
limit; a page response is the value `_get_json` returns (`none` models
its empty-dict result on a JSON parse failure).  The loop stops on a
non-dict body, a page with no array under the root keys or any field,
an empty page, or when `offset/limit + 1` reaches the page ceiling —
it does not stop on a short-but-nonempty page. -/
def paged_go (page_limit mp : Nat) (base_params : List (String × String))
    (root_keys : List String) :
    List (Option JValue) → Nat → List JValue →
    List JValue × List (List (String × String))
  | [], _, acc => (acc, [])
  | r :: rest, offset, acc =>
    let params := base_params.filter (fun kv => !(kv.1 == "limit" || kv.1 == "offset"))
      ++ [("limit", toString page_limit), ("offset", toString offset)]
    match r with
    | none => (acc, [params])
    | some js =>
      match js with
      | JValue.obj fs =>
        let items :=
          match firstRootList root_keys fs with
          | some l => some l
          | none => firstListValue fs
        match items with
        | none => (acc, [params])
        | some l =>
          if l.isEmpty then (acc, [params])
          else
            let acc1 := acc ++ l
            if mp ≤ offset / page_limit + 1 then (acc1, [params])
            else
              let rr := paged_go page_limit mp base_params root_keys rest
                (offset + page_limit) acc1
              (rr.1, params :: rr.2)
      | _ => (acc, [params])

/-- `_paged_collect` entry point: offsets start at 0. -/
def paged_collect (page_limit mp : Nat) (base_params : List (String × String))
    (root_keys : List String) (script : List (Option JValue)) :
    List JValue × List (List (String × String)) :=
  paged_go page_limit mp base_params root_keys script 0 []

/-- Token-manager state: the cached access token and its expiry
(epoch seconds), both `None` until the first authentication. -/
structure TokenSt where
  access_token : Option String
  expires_at : Option Int
deriving DecidableEq

/-- `_ensure_token` (api_client.py:354-358): keep the cached token iff
`now + early_expiry_buffer < expires_at`; otherwise authenticate.
Authentication is abstracted as the state `auth` it would install; the
returned flag records whether `_authenticate` was called. -/
def ensure_token (st : TokenSt) (buffer now : Int) (auth : TokenSt) :
    TokenSt × Bool :=
  match st.access_token, st.expires_at with
  | some tk, some exp =>
    if now + buffer < exp then (⟨some tk, some exp⟩, false) else (auth, true)
  | _, _ => (auth, true)

/-- `_get_json` (api_client.py:506-513): ensure a token, then build the
request with headers from the post-ensure token state. -/
def get_json_request (st : TokenSt) (buffer now : Int) (auth : TokenSt)
    (cust : Option String) (ps : List (String × String)) :
    Req × TokenSt × Bool :=
  let r := ensure_token st buffer now auth
  (⟨ps, headersOf r.1.access_token cust⟩, r.1, r.2)

/-- ASCII lowercasing of the body's characters, as `str.lower()` acts on
the phrases involved. -/
def lowerChars (s : String) : List Char := s.toList.map Char.toLower

/-- Does `needle` begin `hay`? -/
def charsBegin : List Char → List Char → Bool
  | [], _ => true
  | _ :: _, [] => false
  | a :: as, b :: bs => a == b && charsBegin as bs

/-- Does `hay` contain `needle` as a contiguous run (Python `in`)? -/
def charsContain (needle : List Char) : List Char → Bool
  | [] => needle.isEmpty
  | c :: rest => charsBegin needle (c :: rest) || charsContain needle rest

/-- The 401-body probe (api_client.py:460-461): the lowercased body
contains "invalid access token" or "unauthorized". -/
def phrase_match (body : String) : Bool :=
  charsContain ("invalid access token".toList) (lowerChars body)
    || charsContain ("unauthorized".toList) (lowerChars body)

/-- `status in (429, 500, 502, 503, 504)`. -/
def retriable (status : Nat) : Bool :=
  status == 429 || status == 500 || status == 502 || status == 503 || status == 504

/-- The 429 sleep (api_client.py:476-487): a parseable Retry-After
header is honored; a present but unparseable one falls back to a fixed
5.0 seconds (`except ValueError: delay = 5.0`); an absent header uses
`min(2^(attempt-1) * min_interval * 2, max_backoff)`.  The header is
`none` when absent, `some none` when present but not a number, and
`some (some v)` when it parses as the number `v`. -/
def delay429 (retry_after : Option (Option ℚ)) (attempt : Nat)
    (min_interval max_backoff : ℚ) : ℚ :=
  match retry_after with
  | some (some v) => v
  | some none => 5
  | none => min ((2 : ℚ) ^ (attempt - 1) * min_interval * 2) max_backoff

/-- Modelled from the claim's words (C4), for comparison with `delay429`:
sleep the Retry-After value when present and parseable, otherwise sleep
`min(2^(attempt-1) * minInterval * 2, maxBackoff)`. -/
def delay429_claim (retry_after : Option (Option ℚ)) (attempt : Nat)
    (min_interval max_backoff : ℚ) : ℚ :=
  match retry_after with
  | some (some v) => v
  | _ => min ((2 : ℚ) ^ (attempt - 1) * min_interval * 2) max_backoff

/-- `self.min_interval = min(self.min_interval * 1.25, 5.0)`
(api_client.py:489), the only mutation of the baseline interval after
construction. -/
def inflate (m : ℚ) : ℚ := min (m * (5 / 4)) 5

/-- Mutable client state `_do_request` touches: the cached token and the
baseline minimum request interval. -/
structure HState where
  token : Option String
  min_interval : ℚ
deriving DecidableEq

/-- One scripted response to a physical attempt: a 2xx body, an
`HTTPError` with status, body and optional Retry-After header, or a
connection-level `URLError`. -/
inductive HttpResp where
  | ok (body : String)
  | err (status : Nat) (body : String) (retry_after : Option (Option ℚ))
  | net
deriving DecidableEq

/-- How a logical `_do_request` call ends. -/
inductive Outcome where
  | ok (body : String)
  | raisedHttp (status : Nat)
  | raisedNet
  | authFail
  | scriptEnd
deriving DecidableEq

/-- Observable side effects of a logical call: each physical attempt
with the token its headers carried, each backoff sleep, and each
re-authentication triggered by a 401. -/
inductive Ev where
  | attemptEv (token : Option String)
  | sleepEv (d : ℚ)
  | reauthEv
deriving DecidableEq

/-- `_do_request` (api_client.py:442-504) over a response script, one
entry per physical attempt.  Authentication inside the 401 recovery is
abstracted by `authOk` (does `_authenticate` succeed) and `ft` (the
fresh token it would install); it does not consume the page script.
The rate-limiter wait that precedes every attempt is not traced.  An
exhausted script yields `scriptEnd` — theorems always supply enough
responses. -/
def do_request (mr : Nat) (mb : ℚ) (authOk : Bool) (ft : String) :
    HState → List HttpResp → Nat → Outcome × HState × List Ev
  | st, [], _ => (Outcome.scriptEnd, st, [])
  | st, r :: rest, attempt =>
    match r with
    | HttpResp.ok body => (Outcome.ok body, st, [Ev.attemptEv st.token])
    | HttpResp.net =>
      if attempt < mr then
        let backoff := min ((2 : ℚ) ^ (attempt - 1) * st.min_interval) mb
        let rr := do_request mr mb authOk ft st rest (attempt + 1)
        (rr.1, rr.2.1, Ev.attemptEv st.token :: Ev.sleepEv backoff :: rr.2.2)
      else (Outcome.raisedNet, st, [Ev.attemptEv st.token])
    | HttpResp.err status body retry_after =>
      if status = 401 ∧ attempt = 1 ∧ phrase_match body then
        if authOk then
          let st1 : HState := ⟨some ft, st.min_interval⟩
          let rr := do_request mr mb authOk ft st1 rest (attempt + 1)
          match rr.1 with
          | Outcome.ok b =>
            (Outcome.ok b, rr.2.1, Ev.attemptEv st.token :: Ev.reauthEv :: rr.2.2)
          | Outcome.scriptEnd =>
            (Outcome.scriptEnd, rr.2.1, Ev.attemptEv st.token :: Ev.reauthEv :: rr.2.2)
          | _ =>
            (Outcome.authFail, rr.2.1, Ev.attemptEv st.token :: Ev.reauthEv :: rr.2.2)
        else (Outcome.authFail, ⟨none, st.min_interval⟩, [Ev.attemptEv st.token, Ev.reauthEv])
      else
        let st1 : HState :=
          if status = 429 then ⟨st.token, inflate st.min_interval⟩ else st
        let preEvs : List Ev :=
          if status = 429 then
            [Ev.sleepEv (delay429 retry_after attempt st.min_interval mb)]
          else []
        if retriable status ∧ attempt < mr then
          let backoff := min ((2 : ℚ) ^ (attempt - 1) * st1.min_interval) mb
          let moreEvs : List Ev :=
            if status = 429 then [] else [Ev.sleepEv backoff]
          let rr := do_request mr mb authOk ft st1 rest (attempt + 1)
          (rr.1, rr.2.1, Ev.attemptEv st.token :: (preEvs ++ moreEvs ++ rr.2.2))
        else (Outcome.raisedHttp status, st1, Ev.attemptEv st.token :: preEvs)

/-- A value at most the 5-second ceiling does not decrease under
`inflate` and stays under the ceiling. -/
theorem inflate_bounds (m : ℚ) (h0 : 0 ≤ m) (h5 : m ≤ 5) :
    m ≤ inflate m ∧ inflate m ≤ 5 := by
  unfold inflate
  refine ⟨le_min (by nlinarith) h5, min_le_right _ _⟩

/-- A parameter list containing no binding for `key` looks it up to `none`. -/
theorem pget_none_of_no_key (key : String) :
    ∀ l : List (String × String), (∀ kv ∈ l, kv.1 ≠ key) → pget l key = none := by
  intro l
  induction l with
  | nil => intro _; rfl
  | cons kv rest ih =>
    intro h
    obtain ⟨k, v⟩ := kv
    have hk : k ≠ key := h (k, v) (List.mem_cons_self _ _)
    simp [pget, hk]
    exact ih (fun x hx => h x (List.mem_cons_of_mem _ hx))

/-- Every key kept by `site_filter` is `site-id` or `siteId`. -/
theorem site_filter_keys (params : List (String × String)) :
    ∀ kv ∈ site_filter params, kv.1 = "site-id" ∨ kv.1 = "siteId" := by
  intro kv h
  rcases List.mem_filter.mp h with ⟨_, h2⟩
  simpa using h2

/-- Cursor-page parameters never contain a `limit` binding. -/
theorem paging_params_no_limit (t : String) (params : List (String × String)) :
    pget (paging_params t (site_filter params)) "limit" = none := by
  simp [paging_params, pget]
  exact pget_none_of_no_key "limit" _
    (fun kv h => by rcases site_filter_keys params kv h with h1 | h1 <;> simp [h1])

/-- Every request the cursor loop issues carries exactly
`{"next": token}` plus the preserved site parameters, with the headers
built from the cached token. -/
theorem collect_go_req_shape (tok cust : Option String) (sp : List (String × String))
    (ann : JValue → Option JValue) (rk : List String) (mp : Nat) :
    ∀ (script : List (Option JValue)) (page : Nat) (nt : Option String) (acc : List JValue),
      ∀ r ∈ (collect_go tok cust sp ann rk mp script page nt acc).2,
        ∃ t, r = ⟨paging_params t sp, headersOf tok cust⟩ := by
  intro script
  induction script with
  | nil =>
    intro page nt acc r hr
    cases nt with
    | none => simp [collect_go] at hr
    | some t =>
      by_cases h : page < mp <;> simp [collect_go, h] at hr
  | cons x rest ih =>
    intro page nt acc r hr
    cases nt with
    | none => simp [collect_go] at hr
    | some t =>
      by_cases h : page < mp
      · cases x with
        | none =>
          simp [collect_go, h] at hr
          exact ⟨t, hr⟩
        | some js =>
          by_cases he : (extract_items rk js).isEmpty
          · simp [collect_go, h, he] at hr
            exact ⟨t, hr⟩
          · simp [collect_go, h, he] at hr
            rcases hr with hr | hr
            · exact ⟨t, hr⟩
            · exact ih _ _ _ r hr
      · simp [collect_go, h] at hr

/-- The cursor loop entered at parsed-page count `page` issues at most
`mp - page` further requests. -/
theorem collect_go_len (tok cust : Option String) (sp : List (String × String))
    (ann : JValue → Option JValue) (rk : List String) (mp : Nat) :
    ∀ (script : List (Option JValue)) (page : Nat) (nt : Option String) (acc : List JValue),
      (collect_go tok cust sp ann rk mp script page nt acc).2.length ≤ mp - page := by
  intro script
  induction script with
  | nil =>
    intro page nt acc
    cases nt with
    | none => simp [collect_go]
    | some t => by_cases h : page < mp <;> simp [collect_go, h]
  | cons x rest ih =>
    intro page nt acc
    cases nt with
    | none => simp [collect_go]
    | some t =>
      by_cases h : page < mp
      · cases x with
        | none =>
          simp [collect_go, h]
          omega
        | some js =>
          by_cases he : (extract_items rk js).isEmpty
          · simp [collect_go, h, he]
            omega
          · simp [collect_go, h, he]
            have hrec := ih (page + 1) (getNext js)
              (acc ++ List.map (annotate_apply ann) (extract_items rk js))
            omega
      · simp [collect_go, h]

/-- Once the parsed-page count reaches the ceiling the cursor loop
issues no request at all. -/
theorem collect_go_stop (tok cust : Option String) (sp : List (String × String))
    (ann : JValue → Option JValue) (rk : List String) (mp : Nat)
    (script : List (Option JValue)) (page : Nat) (t : String) (acc : List JValue)
    (h : ¬ page < mp) :
    collect_go tok cust sp ann rk mp script page (some t) acc = (acc, []) := by
  cases script <;> simp [collect_go, h]

/-- From the second page on, every request `list_devices` issues carries
exactly `{"next": token}`. -/
theorem ld_go_req_shape (tok cust : Option String) (bp : List (String × String))
    (mp : Nat) (keyOf : JValue → Option String) :
    ∀ (script : List (Option JValue)) (page : Nat) (t : String) (seen : List String)
      (acc : List JValue), 2 ≤ page →
      ∀ r ∈ (ld_go tok cust bp mp keyOf script page (some t) seen acc).2,
        ∃ u, r.qparams = [("next", u)] := by
  intro script
  induction script with
  | nil =>
    intro page t seen acc hp r hr
    simp [ld_go] at hr
  | cons x rest ih =>
    intro page t seen acc hp r hr
    have h1 : 1 < page := hp
    cases x with
    | none =>
      simp [ld_go, h1] at hr
      exact ⟨t, by simp [hr]⟩
    | some js =>
      by_cases he : (ld_extract js).isEmpty
      · simp [ld_go, h1, he] at hr
        exact ⟨t, by simp [hr]⟩
      · cases hn : getNext js with
        | none =>
          simp [ld_go, h1, he, hn] at hr
          exact ⟨t, by simp [hr]⟩
        | some t2 =>
          by_cases hm : mp ≤ page
          · simp [ld_go, h1, he, hn, hm] at hr
            exact ⟨t, by simp [hr]⟩
          · simp [ld_go, h1, he, hn, hm] at hr
            rcases hr with hr | hr
            · exact ⟨t, by simp [hr]⟩
            · exact ih (page + 1) t2 _ _ (by omega) r hr

/-- The `list_devices` loop entered at page number `page ≤ mp` issues at
most `mp + 1 - page` requests. -/
theorem ld_go_len (tok cust : Option String) (bp : List (String × String))
    (mp : Nat) (keyOf : JValue → Option String) :
    ∀ (script : List (Option JValue)) (page : Nat) (nt : Option String)
      (seen : List String) (acc : List JValue), page ≤ mp →
      (ld_go tok cust bp mp keyOf script page nt seen acc).2.length ≤ mp + 1 - page := by
  intro script
  induction script with
  | nil =>
    intro page nt seen acc hp
    simp [ld_go]
  | cons x rest ih =>
    intro page nt seen acc hp
    cases x with
    | none =>
      simp [ld_go]
      omega
    | some js =>
      by_cases he : (ld_extract js).isEmpty
      · simp [ld_go, he]
        omega
      · cases hn : getNext js with
        | none =>
          simp [ld_go, he, hn]
          omega
        | some t2 =>
          by_cases hm : mp ≤ page
          · simp [ld_go, he, hn, hm]
            omega
          · simp [ld_go, he, hn, hm]
            have hrec := ih (page + 1) (some t2)
              (dedup_page keyOf seen acc (ld_extract js)).1
              (dedup_page keyOf seen acc (ld_extract js)).2 (by omega)
            omega

/-- Every request of a `list_devices` run after the first carries
exactly `{"next": token}` (the first-page limit and sort are dropped). -/
theorem list_devices_tail_shape (tok cust : Option String) (pl : Nat)
    (sort : Option String) (mp : Nat) (keyOf : JValue → Option String)
    (script : List (Option JValue)) :
    ∀ r ∈ (list_devices tok cust pl sort mp keyOf script).2.tail,
      ∃ u, r.qparams = [("next", u)] := by
  intro r hr
  cases script with
  | nil => simp [list_devices, ld_go] at hr
  | cons x rest =>
    cases x with
    | none => simp [list_devices, ld_go] at hr
    | some js =>
      by_cases he : (ld_extract js).isEmpty
      · simp [list_devices, ld_go, he] at hr
      · cases hn : getNext js with
        | none => simp [list_devices, ld_go, he, hn] at hr
        | some t2 =>
          by_cases hm : mp ≤ 1
          · simp [list_devices, ld_go, he, hn, hm] at hr
          · simp [list_devices, ld_go, he, hn, hm] at hr
            exact ld_go_req_shape tok cust _ mp keyOf rest 2 t2 _ _ (by omega) r hr

/-- C1: at an input whose first response is a full page (exactly the
configured limit of 3 items) with no `next` token, and whose world has a
second page available, `_cursor_or_offset_collect` issues exactly one
request and returns only the first page — it never enters offset-mode,
although its own docstring (step 3) promises an offset fallback.  The
offset loop that does exist, the separate `_paged_collect`, steps
`offset` by the limit but keeps requesting past a short-but-nonempty
page (a third request follows the one-item second page below), stopping
only on an empty page or the page ceiling. -/
theorem C1_no_offset_requests :
    (cursor_or_offset_collect none none 3 60 [] ["items"] (fun it => some it)
      [some (JValue.obj [("items", JValue.arr [JValue.num 1, JValue.num 2, JValue.num 3])]),
       some (JValue.obj [("items", JValue.arr [JValue.num 4])])]).2.length = 1
    ∧ (cursor_or_offset_collect none none 3 60 [] ["items"] (fun it => some it)
      [some (JValue.obj [("items", JValue.arr [JValue.num 1, JValue.num 2, JValue.num 3])]),
       some (JValue.obj [("items", JValue.arr [JValue.num 4])])]).1
      = [JValue.num 1, JValue.num 2, JValue.num 3]
    ∧ (paged_collect 3 60 [] ["items"]
      [some (JValue.obj [("items", JValue.arr [JValue.num 1, JValue.num 2, JValue.num 3])]),
       some (JValue.obj [("items", JValue.arr [JValue.num 4])]),
       some (JValue.obj [("items", JValue.arr [JValue.num 5, JValue.num 6, JValue.num 7])])]).2
      = [[("limit", "3"), ("offset", "0")], [("limit", "3"), ("offset", "3")],
         [("limit", "3"), ("offset", "6")]] :=
  ⟨rfl, rfl, rfl⟩

/-- C2 counterexample: a `_cursor_or_offset_collect` run on a client
with no cached token issues its physical request with the literal header
`Authorization: Bearer None` — no token was acquired from the token
manager before the request (the collector never calls `_ensure_token`),
refuting the claim that every physical resource request carries a valid
non-expired token. -/
theorem C2_collector_request_without_token :
    (cursor_or_offset_collect none none 100 60 [] ["items"] (fun it => some it)
      [some (JValue.obj [("items", JValue.arr [JValue.num 1])])]).2
    = [⟨[("limit", "100")],
        [("Accept", "application/json"), ("Authorization", "Bearer None")]⟩] := rfl

/-- C2 amended: only `_get_json` consults the token manager before its
request: the request's bearer header is built from the post-ensure token
state, and the cached token is reused (no authentication) only when
`now + buffer < expires_at` — otherwise `_authenticate` runs and its
token is attached. -/
theorem C2_get_json_ensures_token (st : TokenSt) (buffer now : Int) (auth : TokenSt)
    (cust : Option String) (ps : List (String × String)) :
    (get_json_request st buffer now auth cust ps).1.headers
      = headersOf (get_json_request st buffer now auth cust ps).2.1.access_token cust
    ∧ ((get_json_request st buffer now auth cust ps).2.2 = false →
        (get_json_request st buffer now auth cust ps).2.1 = st
        ∧ ∃ tk exp, st.access_token = some tk ∧ st.expires_at = some exp
            ∧ now + buffer < exp)
    ∧ ((get_json_request st buffer now auth cust ps).2.2 = true →
        (get_json_request st buffer now auth cust ps).2.1 = auth) := by
  obtain ⟨ta, te⟩ := st
  cases ta with
  | none => simp [get_json_request, ensure_token]
  | some tk =>
    cases te with
    | none => simp [get_json_request, ensure_token]
    | some exp =>
      by_cases h : now + buffer < exp
      · simp [get_json_request, ensure_token, h]
      · simp [get_json_request, ensure_token, h]

/-- C2 witness: a cached token 400 s from expiry with a 300 s buffer is
reused by `_get_json` without authenticating. -/
theorem C2_get_json_ensures_token_witness :
    (get_json_request ⟨some "tok", some 400⟩ 300 0 ⟨some "fresh", some 9999⟩ none []).2.1
      = ⟨some "tok", some 400⟩
    ∧ (0 : Int) + 300 < 400 := by
  have h := (C2_get_json_ensures_token ⟨some "tok", some 400⟩ 300 0
    ⟨some "fresh", some 9999⟩ none []).2.1 rfl
  exact ⟨h.1, by norm_num⟩

/-- C3: a first-attempt 401 whose body matches the invalid-token phrases
triggers exactly one re-authentication and one retried request built
with the fresh token; a second 401 on the retry ends the logical call
with an authentication error and no further attempt, while a 2xx on the
retry returns its body. -/
theorem C3_single_reauth_then_auth_error (mr : Nat) (mb : ℚ) (ft : String) (st : HState)
    (body1 body2 : String) (ra1 ra2 : Option (Option ℚ)) (rest : List HttpResp)
    (h : phrase_match body1 = true) :
    do_request mr mb true ft st
      (HttpResp.err 401 body1 ra1 :: HttpResp.err 401 body2 ra2 :: rest) 1
      = (Outcome.authFail, ⟨some ft, st.min_interval⟩,
         [Ev.attemptEv st.token, Ev.reauthEv, Ev.attemptEv (some ft)])
    ∧ ∀ b : String,
      do_request mr mb true ft st
        (HttpResp.err 401 body1 ra1 :: HttpResp.ok b :: rest) 1
      = (Outcome.ok b, ⟨some ft, st.min_interval⟩,
         [Ev.attemptEv st.token, Ev.reauthEv, Ev.attemptEv (some ft)]) := by
  constructor
  · norm_num [do_request, retriable, h]
  · intro b
    norm_num [do_request, h]

/-- C3 witness: concrete run with the phrase "invalid access token" and
a second 401. -/
theorem C3_single_reauth_then_auth_error_witness :
    phrase_match "invalid access token" = true
    ∧ do_request 3 30 true "fresh" ⟨some "stale", 1/2⟩
        [HttpResp.err 401 "invalid access token" none, HttpResp.err 401 "x" none] 1
      = (Outcome.authFail, ⟨some "fresh", 1/2⟩,
         [Ev.attemptEv (some "stale"), Ev.reauthEv, Ev.attemptEv (some "fresh")]) := by
  have hp : phrase_match "invalid access token" = true := by decide
  exact ⟨hp, (C3_single_reauth_then_auth_error 3 30 "fresh" ⟨some "stale", 1/2⟩
    "invalid access token" "x" none none [] hp).1⟩

/-- C4 counterexample: a present but unparseable Retry-After header
(`some none`) makes the code sleep the fixed 5.0 seconds, not the
claimed backoff `min(2^(attempt-1) * minInterval * 2, maxBackoff)`,
which at attempt 1 with minInterval 1/2 and maxBackoff 30 would be 1. -/
theorem C4_unparseable_retry_after :
    (do_request 3 30 true "f" ⟨some "t", 1/2⟩
      [HttpResp.err 429 "x" (some none), HttpResp.ok "d"] 1).2.2
      = [Ev.attemptEv (some "t"), Ev.sleepEv 5, Ev.attemptEv (some "t")]
    ∧ delay429 (some none) 1 (1/2) 30 = 5
    ∧ delay429_claim (some none) 1 (1/2) 30 = 1
    ∧ (5 : ℚ) ≠ 1 := by
  refine ⟨?_, rfl, ?_, by norm_num⟩
  · norm_num [do_request, retriable, phrase_match, lowerChars, charsContain, charsBegin,
      delay429, inflate]
  · norm_num [delay429_claim]

/-- C4 amended: on a 429 the transport sleeps `delay429` (the header
value when parseable, a fixed 5 s when present but unparseable, else
`min(2^(attempt-1) * minInterval * 2, maxBackoff)`), then inflates the
baseline minimum interval, and the attempt counts against the
`maxRetries` budget: under the budget the call continues at attempt+1
with the inflated interval, at the budget it raises the 429. -/
theorem C4_http429_behavior (mr : Nat) (mb : ℚ) (a : Bool) (ft : String) (st : HState)
    (body : String) (ra : Option (Option ℚ)) (rest : List HttpResp) (attempt : Nat) :
    (attempt < mr →
      do_request mr mb a ft st (HttpResp.err 429 body ra :: rest) attempt
        = ((do_request mr mb a ft ⟨st.token, inflate st.min_interval⟩ rest (attempt + 1)).1,
           (do_request mr mb a ft ⟨st.token, inflate st.min_interval⟩ rest (attempt + 1)).2.1,
           Ev.attemptEv st.token
             :: Ev.sleepEv (delay429 ra attempt st.min_interval mb)
             :: (do_request mr mb a ft ⟨st.token, inflate st.min_interval⟩ rest (attempt + 1)).2.2))
    ∧ (mr ≤ attempt →
      do_request mr mb a ft st (HttpResp.err 429 body ra :: rest) attempt
        = (Outcome.raisedHttp 429, ⟨st.token, inflate st.min_interval⟩,
           [Ev.attemptEv st.token, Ev.sleepEv (delay429 ra attempt st.min_interval mb)])) := by
  constructor
  · intro h
    have h1 : ¬(429 = 401 ∧ attempt = 1 ∧ phrase_match body = true) := by
      intro hc
      exact absurd hc.1 (by norm_num)
    simp [do_request, retriable, h, h1]
  · intro h
    have h1 : ¬(429 = 401 ∧ attempt = 1 ∧ phrase_match body = true) := by
      intro hc
      exact absurd hc.1 (by norm_num)
    have h2 : ¬attempt < mr := not_lt.mpr h
    simp [do_request, retriable, h1, h2]

/-- C4 witness: with Retry-After parseable as 3 the transport sleeps 3
seconds and inflates the 1/2 s interval to 5/8 s before succeeding. -/
theorem C4_http429_behavior_witness :
    1 < 3
    ∧ do_request 3 30 true "f" ⟨some "t", 1/2⟩
        [HttpResp.err 429 "x" (some (some 3)), HttpResp.ok "d"] 1
      = (Outcome.ok "d", ⟨some "t", 5/8⟩,
         [Ev.attemptEv (some "t"), Ev.sleepEv 3, Ev.attemptEv (some "t")]) := by
  refine ⟨by norm_num, ?_⟩
  have h := (C4_http429_behavior 3 30 true "f" ⟨some "t", 1/2⟩ "x" (some (some 3))
    [HttpResp.ok "d"] 1).1 (by norm_num)
  rw [h]
  norm_num [do_request, delay429, inflate, min_def]

/-- C5 counterexample: with the configured initial interval 6 s (above
the 5 s ceiling), one observed 429 sets `min_interval` to
`min(6 * 1.25, 5) = 5 < 6` — the interval decreases, refuting "never
decreases for every initial configured value". -/
theorem C5_initial_above_cap_decreases :
    (do_request 3 30 true "f" ⟨some "t", 6⟩
      [HttpResp.err 429 "x" none, HttpResp.ok "d"] 1).2.1.min_interval = 5
    ∧ (5 : ℚ) < 6 := by
  constructor
  · norm_num [do_request, retriable, phrase_match, lowerChars, charsContain, charsBegin,
      inflate, delay429, min_def]
  · norm_num

/-- C5 amended: for every initial `min_interval` in `[0, 5]` the
interval never decreases across a logical call — 429-driven inflation
`min(m * 1.25, 5)` is its only mutation — and it stays at most the 5 s
ceiling. -/
theorem C5_min_interval_monotone (mr : Nat) (mb : ℚ) (a : Bool) (ft : String) :
    ∀ (script : List HttpResp) (st : HState) (attempt : Nat),
      0 ≤ st.min_interval → st.min_interval ≤ 5 →
      st.min_interval ≤ (do_request mr mb a ft st script attempt).2.1.min_interval ∧
      (do_request mr mb a ft st script attempt).2.1.min_interval ≤ 5 := by
  intro script
  induction script with
  | nil =>
    intro st attempt h0 h5
    exact ⟨le_refl _, h5⟩
  | cons r rest ih =>
    intro st attempt h0 h5
    cases r with
    | ok body => exact ⟨le_refl _, h5⟩
    | net =>
      by_cases hlt : attempt < mr
      · simpa [do_request, hlt] using ih st (attempt + 1) h0 h5
      · simp [do_request, hlt]
        exact h5
    | err status body ra =>
      by_cases h401 : status = 401 ∧ attempt = 1 ∧ phrase_match body
      · cases a with
        | true =>
          have hi := ih ⟨some ft, st.min_interval⟩ (attempt + 1) h0 h5
          simp only [do_request, if_pos h401, if_pos rfl]
          cases hrr : (do_request mr mb true ft ⟨some ft, st.min_interval⟩ rest (attempt + 1)).1 <;>
            simp_all
        | false =>
          simp [do_request, h401]
          exact h5
      · by_cases h429 : status = 429
        · by_cases hlt : attempt < mr
          · have hb := inflate_bounds st.min_interval h0 h5
            have hi := ih ⟨st.token, inflate st.min_interval⟩ (attempt + 1)
              (le_trans h0 hb.1) hb.2
            simp only [do_request, if_neg h401, if_pos h429] at *
            simp only [retriable, h429] at *
            simp_all
            exact le_trans hb.1 hi.1
          · have hb := inflate_bounds st.min_interval h0 h5
            simp [do_request, h401, h429, retriable, hlt]
            exact ⟨hb.1, hb.2⟩
        · by_cases hr : retriable status ∧ attempt < mr
          · simpa [do_request, h401, h429, hr] using ih st (attempt + 1) h0 h5
          · simp [do_request, h401, h429, hr]
            exact h5

/-- C5 witness: starting from the default 0.5 s the interval does not
decrease across a call that observes a 429. -/
theorem C5_min_interval_monotone_witness :
    (0 : ℚ) ≤ 1/2 ∧ (1/2 : ℚ) ≤ 5
    ∧ (1/2 : ℚ) ≤ (do_request 3 30 true "f" ⟨none, 1/2⟩
        [HttpResp.err 429 "x" none, HttpResp.ok "d"] 1).2.1.min_interval := by
  refine ⟨by norm_num, by norm_num, ?_⟩
  exact (C5_min_interval_monotone 3 30 true "f" [HttpResp.err 429 "x" none, HttpResp.ok "d"]
    ⟨none, 1/2⟩ 1 (by norm_num) (by norm_num)).1

/-- C6: in every cursor-mode run of `_cursor_or_offset_collect`, each
request after the first carries exactly `{next: token}` plus the
site-identifying parameters (site-id/siteId) preserved from the original
call — in particular no `limit` binding — and the loop stops on an
exhausted `next`, an empty item array, or the `maxPagesPerCall` ceiling
(at most `mp` requests overall); likewise each `list_devices` request
after the first carries exactly `{next: token}` and the run issues at
most `mp` requests. -/
theorem C6_cursor_params_and_stops (tok cust : Option String) (pl mp : Nat)
    (params : List (String × String)) (rk : List String)
    (ann : JValue → Option JValue) (script : List (Option JValue)) :
    (∀ r ∈ (cursor_or_offset_collect tok cust pl mp params rk ann script).2.tail,
        (∃ t, r.qparams = paging_params t (site_filter params))
        ∧ pget r.qparams "limit" = none)
    ∧ (1 ≤ mp →
        (cursor_or_offset_collect tok cust pl mp params rk ann script).2.length ≤ mp)
    ∧ (∀ js1 js2 t rest, 2 ≤ mp → getNext js1 = some t → getNext js2 = none →
        (extract_items rk js2).isEmpty = false →
        (cursor_or_offset_collect tok cust pl mp params rk ann
          (some js1 :: some js2 :: rest)).2.length = 2)
    ∧ (∀ js1 js2 t rest, 2 ≤ mp → getNext js1 = some t →
        (extract_items rk js2).isEmpty = true →
        (cursor_or_offset_collect tok cust pl mp params rk ann
          (some js1 :: some js2 :: rest)).2.length = 2)
    ∧ (∀ js1 js2 t t2 rest, mp = 2 → getNext js1 = some t → getNext js2 = some t2 →
        (extract_items rk js2).isEmpty = false →
        (cursor_or_offset_collect tok cust pl mp params rk ann
          (some js1 :: some js2 :: rest)).2.length = 2)
    ∧ (∀ (sort : Option String) (keyOf : JValue → Option String)
        (script2 : List (Option JValue)),
        ∀ r ∈ (list_devices tok cust pl sort mp keyOf script2).2.tail,
          ∃ u, r.qparams = [("next", u)])
    ∧ (∀ (sort : Option String) (keyOf : JValue → Option String)
        (script2 : List (Option JValue)),
        1 ≤ mp → (list_devices tok cust pl sort mp keyOf script2).2.length ≤ mp) := by
  refine ⟨?_, ?_, ?_, ?_, ?_, ?_, ?_⟩
  · intro r hr
    cases script with
    | nil => simp [cursor_or_offset_collect] at hr
    | cons x rest =>
      cases x with
      | none => simp [cursor_or_offset_collect] at hr
      | some js =>
        simp only [cursor_or_offset_collect, List.tail_cons] at hr
        obtain ⟨t, ht⟩ := collect_go_req_shape tok cust (site_filter params) ann rk mp
          rest 1 (getNext js) _ r hr
        subst ht
        exact ⟨⟨t, rfl⟩, paging_params_no_limit t params⟩
  · intro hmp
    cases script with
    | nil => simp [cursor_or_offset_collect]
    | cons x rest =>
      cases x with
      | none =>
        simp [cursor_or_offset_collect]
        omega
      | some js =>
        have hlen := collect_go_len tok cust (site_filter params) ann rk mp
          rest 1 (getNext js)
          (List.map (annotate_apply ann) (extract_items rk js))
        simp only [cursor_or_offset_collect, List.length_cons]
        simp only [List.length_cons] at hlen ⊢
        omega
  · intro js1 js2 t rest h2 hn1 hn2 hne
    have hlt : 1 < mp := h2
    simp [cursor_or_offset_collect, collect_go, hn1, hn2, hne, hlt]
  · intro js1 js2 t rest h2 hn1 hne
    have hlt : 1 < mp := h2
    simp [cursor_or_offset_collect, collect_go, hn1, hne, hlt]
  · intro js1 js2 t t2 rest hm hn1 hn2 hne
    subst hm
    have hstop := collect_go_stop tok cust (site_filter params) ann rk 2 rest 2 t2
      (List.map (annotate_apply ann) (extract_items rk js1) ++
        List.map (annotate_apply ann) (extract_items rk js2)) (by omega)
    simp [cursor_or_offset_collect, collect_go, hn1, hn2, hne, hstop]
  · intro sort keyOf script2
    exact list_devices_tail_shape tok cust pl sort mp keyOf script2
  · intro sort keyOf script2 hmp
    have := ld_go_len tok cust
      ([("limit", toString (min pl 100))]
        ++ (match sort with | some s => [("sort", s)] | none => []))
      mp keyOf script2 1 none [] [] hmp
    simp only [list_devices]
    omega

/-- C6 witness: a two-page cursor run over a site-filtered call stops
after the page whose `next` is absent, in exactly two requests. -/
theorem C6_cursor_params_and_stops_witness :
    2 ≤ 60
    ∧ (cursor_or_offset_collect none none 100 60 [("site-id", "s1")] ["items"]
        (fun it => some it)
        [some (JValue.obj [("items", JValue.arr [JValue.num 1]), ("next", JValue.str "t")]),
         some (JValue.obj [("items", JValue.arr [JValue.num 2])])]).2.length = 2 := by
  refine ⟨by norm_num, ?_⟩
  exact (C6_cursor_params_and_stops none none 100 60 [("site-id", "s1")] ["items"]
    (fun it => some it) []).2.2.1
    (JValue.obj [("items", JValue.arr [JValue.num 1]), ("next", JValue.str "t")])
    (JValue.obj [("items", JValue.arr [JValue.num 2])]) "t" []
    (by norm_num) rfl rfl rfl

/-- C7 counterexample: a cached token whose expiry is 400 s in the
future with a 300 s early-expiry buffer is a cache hit — `_ensure_token`
returns the cached token and does not authenticate, refuting the claimed
fresh authentication call. -/
theorem C7_cache_hit_at_400s :
    ensure_token ⟨some "cached", some 400⟩ 300 0 ⟨some "fresh", some 9999⟩
      = (⟨some "cached", some 400⟩, false) := rfl

/-- C7 amended: with a complete cached token, `_ensure_token` keeps it
exactly when `now + buffer < expiresAt` (so 400 s out with a 300 s
buffer is kept) and authenticates otherwise — i.e. a fresh
authentication is triggered only when the expiry lies within the buffer;
an incomplete cache always authenticates. -/
theorem C7_ensure_token_condition (tk : String) (exp buffer now : Int) (auth : TokenSt) :
    (ensure_token ⟨some tk, some exp⟩ buffer now auth
      = if now + buffer < exp then (⟨some tk, some exp⟩, false) else (auth, true))
    ∧ (∀ e : Option Int, ensure_token ⟨none, e⟩ buffer now auth = (auth, true)) := by
  constructor
  · rfl
  · intro e
    rfl

/-- C8 counterexample: with rootKeys `["clients", "items", "data"]` and
a body containing both a `clients` and an `items` array, the code
returns the `items` array — the hard-coded `items` priority — while the
claimed in-order rootKey probing would return `clients`. -/
theorem C8_items_priority :
    extract_items ["clients", "items", "data"]
      (JValue.obj [("clients", JValue.arr [JValue.str "a"]),
                   ("items", JValue.arr [JValue.str "b"])])
      = [JValue.str "b"]
    ∧ extract_items_claim ["clients", "items", "data"]
      (JValue.obj [("clients", JValue.arr [JValue.str "a"]),
                   ("items", JValue.arr [JValue.str "b"])])
      = [JValue.str "a"]
    ∧ ([JValue.str "b"] : List JValue) ≠ [JValue.str "a"] :=
  ⟨rfl, rfl, by simp⟩

/-- C8 amended: extraction returns the `items` array first when present;
only otherwise the rootKeys in order; then the first array-valued field;
then a `data` object wrapped as a one-element list; a list body is used
as-is. -/
theorem C8_extract_items_chain (rk : List String) (fs : List (String × JValue)) :
    (∀ l, itemsArr fs = some l → extract_items rk (JValue.obj fs) = l)
    ∧ (∀ l, itemsArr fs = none → firstRootList rk fs = some l →
        extract_items rk (JValue.obj fs) = l)
    ∧ (∀ l, itemsArr fs = none → firstRootList rk fs = none →
        firstListValue fs = some l → extract_items rk (JValue.obj fs) = l)
    ∧ (∀ d, itemsArr fs = none → firstRootList rk fs = none →
        firstListValue fs = none → jget fs "data" = some (JValue.obj d) →
        extract_items rk (JValue.obj fs) = [JValue.obj d])
    ∧ (∀ xs, extract_items rk (JValue.arr xs) = xs) := by
  refine ⟨?_, ?_, ?_, ?_, fun xs => rfl⟩
  · intro l h1
    simp [extract_items, h1]
  · intro l h1 h2
    simp [extract_items, h1, h2]
  · intro l h1 h2 h3
    simp [extract_items, h1, h2, h3]
  · intro d h1 h2 h3 h4
    simp [extract_items, h1, h2, h3, h4]

/-- C8 witness: an `items` array is extracted even with no rootKeys. -/
theorem C8_extract_items_chain_witness :
    extract_items [] (JValue.obj [("items", JValue.arr [JValue.num 7])]) = [JValue.num 7] :=
  (C8_extract_items_chain [] [("items", JValue.arr [JValue.num 7])]).1 [JValue.num 7] rfl

/-- C9: a page body that fails to parse as JSON is absorbed: a malformed
first page yields `[]` after one request, and a malformed later page
ends pagination with the items collected so far returned — in both cases
the collector returns normally instead of raising. -/
theorem C9_malformed_page_partial_results (tok cust : Option String) (pl mp : Nat)
    (params : List (String × String)) (rk : List String)
    (ann : JValue → Option JValue) :
    (∀ rest, (cursor_or_offset_collect tok cust pl mp params rk ann (none :: rest)).1 = []
      ∧ (cursor_or_offset_collect tok cust pl mp params rk ann (none :: rest)).2.length = 1)
    ∧ (∀ js t rest, getNext js = some t → 2 ≤ mp →
        (cursor_or_offset_collect tok cust pl mp params rk ann (some js :: none :: rest)).1
          = (extract_items rk js).map (annotate_apply ann)
        ∧ (cursor_or_offset_collect tok cust pl mp params rk ann
            (some js :: none :: rest)).2.length = 2) := by
  constructor
  · intro rest
    constructor <;> rfl
  · intro js t rest h1 h2
    have hlt : 1 < mp := h2
    constructor <;> simp [cursor_or_offset_collect, collect_go, h1, hlt]

/-- C9 witness: one good page followed by a malformed page returns the
good page's single item. -/
theorem C9_malformed_page_partial_results_witness :
    getNext (JValue.obj [("items", JValue.arr [JValue.num 1]), ("next", JValue.str "t")])
      = some "t"
    ∧ 2 ≤ 60
    ∧ (cursor_or_offset_collect none none 100 60 [] ["items"] (fun it => some it)
        [some (JValue.obj [("items", JValue.arr [JValue.num 1]), ("next", JValue.str "t")]),
         none]).1
      = [JValue.num 1] := by
  refine ⟨rfl, by norm_num, ?_⟩
  have h := ((C9_malformed_page_partial_results none none 100 60 [] ["items"]
      (fun it => some it)).2
      (JValue.obj [("items", JValue.arr [JValue.num 1]), ("next", JValue.str "t")])
      "t" [] rfl (by norm_num)).1
  rw [h]
  rfl

/-- C10: a raising `annotate` callback is swallowed per item — every
extracted item of a page still ends up in the result (a failing item is
appended unchanged) and collection proceeds to the remaining items. -/
theorem C10_annotate_swallowed (tok cust : Option String) (pl mp : Nat)
    (params : List (String × String)) (rk : List String)
    (ann : JValue → Option JValue) :
    (∀ js rest, getNext js = none →
      (cursor_or_offset_collect tok cust pl mp params rk ann (some js :: rest)).1
        = (extract_items rk js).map (annotate_apply ann))
    ∧ (∀ it, ann it = none → annotate_apply ann it = it) := by
  constructor
  · intro js rest h
    simp [cursor_or_offset_collect, collect_go, h]
  · intro it h
    simp [annotate_apply, h]

/-- C10 witness: a callback that raises on every item still lets both
items of the page through unchanged. -/
theorem C10_annotate_swallowed_witness :
    (fun _ : JValue => (none : Option JValue)) (JValue.num 1) = none
    ∧ (cursor_or_offset_collect none none 100 60 [] ["items"] (fun _ => none)
        [some (JValue.obj [("items", JValue.arr [JValue.num 1, JValue.num 2])])]).1
      = [JValue.num 1, JValue.num 2] := by
  refine ⟨rfl, ?_⟩
  have h := (C10_annotate_swallowed none none 100 60 [] ["items"] (fun _ => none)).1
      (JValue.obj [("items", JValue.arr [JValue.num 1, JValue.num 2])]) [] rfl
  rw [h]
  rfl
